import Mathlib

/-!
Shallow embedding of the motion cadence synchronization engine of
`src/frontend/app.js`, and proofs about its specified behavior.

JavaScript numbers are modelled as exact rationals (`ℚ`).  The only
irrational quantity in the source is the adaptive threshold
`avg + 0.7 * Math.sqrt(variance)`; comparisons of a sample against it are
decided in exact rational arithmetic by `aboveThreshold` / `belowThreshold`,
and lemmas `aboveThreshold_iff` / `belowThreshold_iff` prove those decision
procedures equivalent to the real-number comparisons against
`avg + 0.7 * Real.sqrt variance` that the source performs.

Mutable global state (`spmHistory`, `currentSongBpm`) is passed explicitly.
-/

/-- JavaScript `Math.round`: round half toward positive infinity,
i.e. `⌊q + 1/2⌋`. -/
def jsRound (q : ℚ) : ℤ := ⌊q + 1 / 2⌋

/-- JavaScript `Array.prototype.reduce((a, b) => a + b)` without an initial
value: the first element seeds the accumulator.  (JS throws on an empty
array; the source only ever applies it to a freshly pushed, hence nonempty,
history, so the `[]` case is unreachable and modelled as `0`.) -/
def reduce1 : List ℚ → ℚ
  | [] => 0
  | x :: xs => xs.foldl (· + ·) x

/-- `const avg = data.reduce((a, b) => a + b, 0) / data.length;`
(line 367 of `src/frontend/app.js`). -/
def sampleMean (data : List ℚ) : ℚ := data.foldl (· + ·) 0 / (data.length : ℚ)

/-- `const variance = data.reduce((a, b) => a + Math.pow(b - avg, 2), 0) / data.length;`
(line 368): the population variance of the frame. -/
def sampleVariance (data : List ℚ) : ℚ :=
  data.foldl (fun a b => a + (b - sampleMean data) ^ 2) 0 / (data.length : ℚ)

/-- Decides `x > threshold` where `threshold = avg + 0.7 * Math.sqrt v`
(lines 371-372, 377), in exact rational arithmetic:
for `0 ≤ v`, `x > avg + 0.7·√v  ↔  avg < x ∧ 49·v < 100·(x-avg)²`.
The equivalence with the real-number comparison is `aboveThreshold_iff`. -/
def aboveThreshold (avg v x : ℚ) : Bool :=
  decide (avg < x) && decide (49 * v < 100 * (x - avg) ^ 2)

/-- Decides `x < threshold` where `threshold = avg + 0.7 * Math.sqrt v`
(line 378), in exact rational arithmetic:
for `0 ≤ v`, `x < avg + 0.7·√v  ↔  x < avg ∨ 100·(x-avg)² < 49·v`.
The equivalence with the real-number comparison is `belowThreshold_iff`. -/
def belowThreshold (avg v x : ℚ) : Bool :=
  decide (x < avg) || decide (100 * (x - avg) ^ 2 < 49 * v)

/-- The step-detection loop body of `calculateSPM` (lines 376-379):

    for (let i = 1; i < data.length; i++) {
        if (data[i] > threshold && !cross) { steps++; cross = true; }
        else if (data[i] < threshold) { cross = false; }
    }

walked over the remaining samples `l`, carrying the current `steps` count
and `cross` flag. -/
def stepLoop (avg v : ℚ) : List ℚ → ℕ → Bool → ℕ
  | [], steps, _ => steps
  | x :: rest, steps, cross =>
    if aboveThreshold avg v x && !cross then stepLoop avg v rest (steps + 1) true
    else if belowThreshold avg v x then stepLoop avg v rest steps false
    else stepLoop avg v rest steps cross

/-- The step count the code produces for a frame: the loop of lines 376-379
starts at index `i = 1`, so it walks `data.tail`, with `steps = 0` and
`cross = false` initially. -/
def codeStepCount (data : List ℚ) : ℕ :=
  stepLoop (sampleMean data) (sampleVariance data) data.tail 0 false

/-- Modelled from the spec's wording of step detection ("walk the 200
samples in order, maintaining a boolean `crossed` flag (initially false)"):
the same per-sample transition as the code, but started at the FIRST sample
of the frame rather than at index 1.  Used to compare the spec's wording
with `codeStepCount`. -/
def specStepCount (data : List ℚ) : ℕ :=
  stepLoop (sampleMean data) (sampleVariance data) data 0 false

/-- Modelled from the spec's wording "the number of transitions from ≤T to
>T": counts the samples that are above the threshold while the previous
walked sample (or the start of the walk) was not above it. -/
def risingEdgeCount (avg v : ℚ) : Bool → List ℚ → ℕ
  | _, [] => 0
  | prevAbove, x :: xs =>
    (if aboveThreshold avg v x && !prevAbove then 1 else 0) +
      risingEdgeCount avg v (aboveThreshold avg v x) xs

/-- `const rawSpm = Math.round((steps / (durationMs / 1000)) * 60);`
(line 381), with `steps` produced by the loop over `data.tail`. -/
def rawSpm (data : List ℚ) (durationMs : ℚ) : ℚ :=
  (jsRound (((codeStepCount data : ℚ) / (durationMs / 1000)) * 60) : ℤ)

/-- Lines 382-384 of `calculateSPM`, the smoothing step:

    spmHistory.push(rawSpm);
    if (spmHistory.length > 3) spmHistory.shift();
    return Math.round(spmHistory.reduce((a, b) => a + b) / spmHistory.length);

Returns the smoothed value together with the new history. -/
def smootherPush (spmHistory : List ℚ) (raw : ℚ) : ℚ × List ℚ :=
  let pushed := spmHistory ++ [raw]
  let newHist := if 3 < pushed.length then pushed.tail else pushed
  ((jsRound (reduce1 newHist / (newHist.length : ℚ)) : ℤ), newHist)

/-- `function calculateSPM(data, durationMs)` (lines 366-385), with the
global `spmHistory` passed in and returned explicitly.  Returns the value
the function returns and the history after the call.  The stationary check
is `if (variance < 0.1) return 0;` (line 369), which returns before the
history is touched. -/
def calculateSPM (data : List ℚ) (durationMs : ℚ) (spmHistory : List ℚ) :
    ℚ × List ℚ :=
  if sampleVariance data < 1 / 10 then (0, spmHistory)
  else smootherPush spmHistory (rawSpm data durationMs)

/-- The sync computation of `updateSyncDisplay` (lines 402-420): a score is
computed only under the guard `spm > 0 && currentSongBpm > 0`; otherwise no
score is produced for the tick.  `Math.max(0, 100 - Math.abs(spm - bpm))`. -/
def syncScore (spm bpm : ℚ) : Option ℚ :=
  if 0 < spm ∧ 0 < bpm then some (max 0 (100 - |spm - bpm|)) else none

/-- The possible outcomes of one poll of `GET /api/current-track-bpm` as seen
by `updateSongBpm` (lines 388-399): the fetch can reject (network error),
`res.json()` can reject (malformed payload), or a JSON object arrives whose
`bpm` field is absent (`none`) or present. -/
inductive BpmFetch where
  | networkError : BpmFetch
  | malformedPayload : BpmFetch
  | payload : Option ℚ → BpmFetch

/-- The `try` body of `updateSongBpm`: an `Except` models that `fetch` and
`res.json()` can throw.  `if (data.bpm)` is JS truthiness: a present,
nonzero `bpm` is stored; a missing (or zero) field leaves the previous
value. -/
def updateSongBpmBody (r : BpmFetch) (prev : ℚ) : Except Unit ℚ :=
  match r with
  | .networkError => .error ()
  | .malformedPayload => .error ()
  | .payload none => .ok prev
  | .payload (some b) => .ok (if b ≠ 0 then b else prev)

/-- `async function updateSongBpm()` (lines 388-399) as a total function on
the stored tempo: the `catch (e) { console.error(e); }` handler swallows any
exception from the body and only logs it.  Returns the new stored tempo and
whether an error was logged. -/
def updateSongBpm (prev : ℚ) (r : BpmFetch) : ℚ × Bool :=
  match updateSongBpmBody r prev with
  | .ok b => (b, false)
  | .error _ => (prev, true)

/-- A concrete 200-sample frame: one spike of magnitude 10 at index 0,
all other magnitudes 0. -/
def spikeFrame : List ℚ := (10 : ℚ) :: List.replicate 199 0

/-- A concrete 200-sample frame of alternating magnitudes
`0, 10, 0, 10, …, 0, 10` (100 zeros and 100 tens). -/
def altFrame : List ℚ :=
  (0 : ℚ) :: (List.replicate 99 ((10 : ℚ) :: (0 : ℚ) :: [])).flatten ++ [(10 : ℚ)]

/-! ### General helper lemmas -/

theorem foldl_add_eq (l : List ℚ) : ∀ c : ℚ, l.foldl (· + ·) c = c + l.sum := by
  induction l with
  | nil => intro c; simp
  | cons x xs ih => intro c; simp [List.foldl_cons, ih (c + x), add_assoc]

theorem foldl_add_sq_eq (m : ℚ) (l : List ℚ) :
    ∀ c : ℚ, l.foldl (fun a b => a + (b - m) ^ 2) c
      = c + (l.map (fun b => (b - m) ^ 2)).sum := by
  induction l with
  | nil => intro c; simp
  | cons x xs ih => intro c; simp [List.foldl_cons, ih (c + (x - m) ^ 2), add_assoc]

theorem reduce1_eq_sum (l : List ℚ) : reduce1 l = l.sum := by
  cases l with
  | nil => rfl
  | cons x xs => simp [reduce1, foldl_add_eq]

theorem sampleMean_eq (data : List ℚ) :
    sampleMean data = data.sum / (data.length : ℚ) := by
  simp [sampleMean, foldl_add_eq]

theorem sampleVariance_eq (data : List ℚ) :
    sampleVariance data
      = (data.map (fun b => (b - sampleMean data) ^ 2)).sum / (data.length : ℚ) := by
  simp [sampleVariance, foldl_add_sq_eq]

theorem sampleVariance_nonneg (data : List ℚ) : 0 ≤ sampleVariance data := by
  rw [sampleVariance_eq]
  apply div_nonneg
  · apply List.sum_nonneg
    intro q hq
    obtain ⟨b, _, rfl⟩ := List.mem_map.mp hq
    positivity
  · positivity

theorem sampleMean_replicate (n : ℕ) (c : ℚ) (hn : n ≠ 0) :
    sampleMean (List.replicate n c) = c := by
  rw [sampleMean_eq]
  simp only [List.sum_replicate, List.length_replicate, nsmul_eq_mul]
  field_simp

theorem sampleVariance_replicate (n : ℕ) (c : ℚ) :
    sampleVariance (List.replicate n c) = 0 := by
  rcases Nat.eq_zero_or_pos n with hn | hn
  · subst hn; simp [sampleVariance]
  · rw [sampleVariance_eq, sampleMean_replicate n c (by omega)]
    simp [List.map_replicate, List.sum_replicate]

/-- The exact rational test `aboveThreshold` decides the source's comparison
`data[i] > threshold` with `threshold = avg + 0.7 * Math.sqrt(variance)`,
read over the reals. -/
theorem aboveThreshold_iff (avg v x : ℚ) (hv : 0 ≤ v) :
    aboveThreshold avg v x = true
      ↔ (avg : ℝ) + 0.7 * Real.sqrt (v : ℝ) < (x : ℝ) := by
  have hv' : (0 : ℝ) ≤ (v : ℝ) := by exact_mod_cast hv
  have hs : (0 : ℝ) ≤ Real.sqrt (v : ℝ) := Real.sqrt_nonneg _
  have hs2 : Real.sqrt (v : ℝ) ^ 2 = (v : ℝ) := Real.sq_sqrt hv'
  simp only [aboveThreshold, Bool.and_eq_true, decide_eq_true_eq]
  constructor
  · rintro ⟨h1, h2⟩
    have h1' : (avg : ℝ) < (x : ℝ) := by exact_mod_cast h1
    have h2' : (49 : ℝ) * (v : ℝ) < 100 * ((x : ℝ) - (avg : ℝ)) ^ 2 := by
      exact_mod_cast h2
    nlinarith [hs, hs2, h1', h2']
  · intro h
    have h1' : (avg : ℝ) < (x : ℝ) := by nlinarith [hs]
    have h2' : (49 : ℝ) * (v : ℝ) < 100 * ((x : ℝ) - (avg : ℝ)) ^ 2 := by
      nlinarith [hs, hs2]
    exact ⟨by exact_mod_cast h1', by exact_mod_cast h2'⟩

/-- The exact rational test `belowThreshold` decides the source's comparison
`data[i] < threshold` with `threshold = avg + 0.7 * Math.sqrt(variance)`,
read over the reals. -/
theorem belowThreshold_iff (avg v x : ℚ) (hv : 0 ≤ v) :
    belowThreshold avg v x = true
      ↔ (x : ℝ) < (avg : ℝ) + 0.7 * Real.sqrt (v : ℝ) := by
  have hv' : (0 : ℝ) ≤ (v : ℝ) := by exact_mod_cast hv
  have hs : (0 : ℝ) ≤ Real.sqrt (v : ℝ) := Real.sqrt_nonneg _
  have hs2 : Real.sqrt (v : ℝ) ^ 2 = (v : ℝ) := Real.sq_sqrt hv'
  simp only [belowThreshold, Bool.or_eq_true, decide_eq_true_eq]
  constructor
  · rintro (h | h)
    · have h' : (x : ℝ) < (avg : ℝ) := by exact_mod_cast h
      nlinarith [hs]
    · have h' : (100 : ℝ) * ((x : ℝ) - (avg : ℝ)) ^ 2 < 49 * (v : ℝ) := by
        exact_mod_cast h
      by_contra hc
      push_neg at hc
      nlinarith [hs, hs2]
  · intro h
    by_cases hxa : x < avg
    · exact Or.inl hxa
    · push_neg at hxa
      have hxa' : (avg : ℝ) ≤ (x : ℝ) := by exact_mod_cast hxa
      have : (100 : ℝ) * ((x : ℝ) - (avg : ℝ)) ^ 2 < 49 * (v : ℝ) := by
        nlinarith [hs, hs2]
      exact Or.inr (by exact_mod_cast this)

theorem above_not_below (avg v x : ℚ) (h : aboveThreshold avg v x = true) :
    belowThreshold avg v x = false := by
  simp only [aboveThreshold, Bool.and_eq_true, decide_eq_true_eq] at h
  simp only [belowThreshold, Bool.or_eq_false_iff, decide_eq_false_iff_not]
  exact ⟨by linarith [h.1], by linarith [h.2]⟩

theorem stepLoop_no_above (avg v : ℚ) (l : List ℚ)
    (h : ∀ x ∈ l, aboveThreshold avg v x = false) :
    ∀ steps cross, stepLoop avg v l steps cross = steps := by
  induction l with
  | nil => intro steps cross; rfl
  | cons x xs ih =>
    intro steps cross
    have hx := h x (List.mem_cons_self x xs)
    have hxs : ∀ y ∈ xs, aboveThreshold avg v y = false := fun y hy =>
      h y (List.mem_cons_of_mem x hy)
    cases hb : belowThreshold avg v x <;>
      simp [stepLoop, hx, hb, ih hxs]

/-- On a frame every sample of which is decisively above or decisively below
the threshold (no sample equals it exactly), the imperative crossing loop
counts exactly the transitions from not-above to above. -/
theorem stepLoop_eq_risingEdgeCount (avg v : ℚ) (l : List ℚ)
    (hd : ∀ x ∈ l, aboveThreshold avg v x = true ∨ belowThreshold avg v x = true) :
    ∀ steps cross,
      stepLoop avg v l steps cross = steps + risingEdgeCount avg v cross l := by
  induction l with
  | nil => intro steps cross; rfl
  | cons x xs ih =>
    intro steps cross
    have hx := hd x (List.mem_cons_self x xs)
    have hxs : ∀ y ∈ xs,
        aboveThreshold avg v y = true ∨ belowThreshold avg v y = true :=
      fun y hy => hd y (List.mem_cons_of_mem x hy)
    cases ha : aboveThreshold avg v x with
    | false =>
      have hb : belowThreshold avg v x = true := by
        rcases hx with h | h
        · exact absurd h (by simp [ha])
        · exact h
      simp [stepLoop, risingEdgeCount, ha, hb, ih hxs]
    | true =>
      have hb : belowThreshold avg v x = false := above_not_below avg v x ha
      cases cross with
      | false =>
        simp only [stepLoop, risingEdgeCount, ha, hb]
        simp [ih hxs]
        omega
      | true =>
        simp only [stepLoop, risingEdgeCount, ha, hb]
        simp [ih hxs]

/-! ### Unfolding and evaluation lemmas for the concrete frames -/

theorem stepLoop_cons (avg v x : ℚ) (rest : List ℚ) (steps : ℕ) (cross : Bool) :
    stepLoop avg v (x :: rest) steps cross =
      if aboveThreshold avg v x && !cross then stepLoop avg v rest (steps + 1) true
      else if belowThreshold avg v x then stepLoop avg v rest steps false
      else stepLoop avg v rest steps cross := rfl

theorem spikeFrame_mean : sampleMean spikeFrame = 1 / 20 := by
  rw [sampleMean_eq]
  simp only [spikeFrame, List.sum_cons, List.sum_replicate, List.length_cons,
    List.length_replicate, smul_zero]
  norm_num

theorem spikeFrame_var : sampleVariance spikeFrame = 199 / 400 := by
  rw [sampleVariance_eq, spikeFrame_mean]
  simp only [spikeFrame, List.map_cons, List.map_replicate, List.sum_cons,
    List.sum_replicate, List.length_cons, List.length_replicate, nsmul_eq_mul]
  norm_num

theorem spike_above_ten :
    aboveThreshold (sampleMean spikeFrame) (sampleVariance spikeFrame) 10 = true := by
  rw [spikeFrame_mean, spikeFrame_var]
  simp only [aboveThreshold, Bool.and_eq_true, decide_eq_true_eq]
  norm_num

theorem spike_above_zero :
    aboveThreshold (sampleMean spikeFrame) (sampleVariance spikeFrame) 0 = false := by
  rw [spikeFrame_mean, spikeFrame_var]
  simp only [aboveThreshold, Bool.and_eq_false_iff, decide_eq_false_iff_not]
  left
  norm_num

theorem codeStepCount_spikeFrame : codeStepCount spikeFrame = 0 := by
  unfold codeStepCount
  have htail : spikeFrame.tail = List.replicate 199 0 := rfl
  rw [htail]
  exact stepLoop_no_above _ _ _
    (fun x hx => by rw [List.eq_of_mem_replicate hx]; exact spike_above_zero) 0 false

theorem specStepCount_spikeFrame : specStepCount spikeFrame = 1 := by
  unfold specStepCount
  show stepLoop (sampleMean spikeFrame) (sampleVariance spikeFrame)
    ((10 : ℚ) :: List.replicate 199 0) 0 false = 1
  rw [stepLoop_cons, spike_above_ten]
  simp only [Bool.not_false, Bool.and_self, if_true]
  exact stepLoop_no_above _ _ _
    (fun x hx => by rw [List.eq_of_mem_replicate hx]; exact spike_above_zero) 1 true

theorem rawSpm_spikeFrame (durationMs : ℚ) : rawSpm spikeFrame durationMs = 0 := by
  rw [rawSpm, codeStepCount_spikeFrame]
  norm_num [jsRound]

theorem altFrame_mean : sampleMean altFrame = 5 := by
  rw [sampleMean_eq]
  simp only [altFrame, List.sum_cons, List.sum_append, List.sum_flatten,
    List.map_replicate, List.sum_replicate, List.length_cons, List.length_append,
    List.length_flatten, List.map_cons, List.map_nil, List.length_replicate,
    nsmul_eq_mul]
  norm_num

theorem altFrame_var : sampleVariance altFrame = 25 := by
  rw [sampleVariance_eq, altFrame_mean]
  simp only [altFrame, List.map_cons, List.map_append, List.map_flatten,
    List.map_replicate, List.map_nil, List.sum_cons, List.sum_append,
    List.sum_flatten, List.sum_replicate, List.length_cons, List.length_append,
    List.length_flatten, List.length_replicate, nsmul_eq_mul]
  norm_num

theorem alt_above_ten : aboveThreshold 5 25 10 = true := by
  simp only [aboveThreshold, Bool.and_eq_true, decide_eq_true_eq]
  norm_num

theorem alt_above_zero : aboveThreshold 5 25 0 = false := by
  simp only [aboveThreshold, Bool.and_eq_false_iff, decide_eq_false_iff_not]
  left
  norm_num

theorem alt_below_zero : belowThreshold 5 25 0 = true := by
  simp only [belowThreshold, Bool.or_eq_true, decide_eq_true_eq]
  left
  norm_num

theorem altTail_stepLoop (n : ℕ) :
    ∀ steps, stepLoop 5 25 ((List.replicate n ((10 : ℚ) :: (0 : ℚ) :: [])).flatten
      ++ [(10 : ℚ)]) steps false = steps + n + 1 := by
  induction n with
  | zero =>
    intro steps
    simp only [List.replicate, List.flatten_nil, List.nil_append]
    rw [stepLoop_cons, alt_above_ten]
    rfl
  | succ k ih =>
    intro steps
    simp only [List.replicate_succ, List.flatten_cons, List.cons_append,
      List.nil_append, List.append_assoc]
    rw [stepLoop_cons, alt_above_ten]
    simp only [Bool.not_false, Bool.and_self, if_true]
    rw [stepLoop_cons, alt_above_zero]
    simp only [alt_below_zero, Bool.false_and, Bool.false_eq_true, if_false, if_true]
    rw [ih (steps + 1)]
    omega

theorem altFrame_tail :
    altFrame.tail
      = (List.replicate 99 ((10 : ℚ) :: (0 : ℚ) :: [])).flatten ++ [(10 : ℚ)] := rfl

theorem codeStepCount_altFrame : codeStepCount altFrame = 100 := by
  unfold codeStepCount
  rw [altFrame_tail, altFrame_mean, altFrame_var, altTail_stepLoop 99 0]

theorem rawSpm_altFrame_zero : rawSpm altFrame 0 = 0 := by
  rw [rawSpm, codeStepCount_altFrame]
  norm_num [jsRound]

theorem alt_tail_mem (x : ℚ)
    (hx : x ∈ (List.replicate 99 ((10 : ℚ) :: (0 : ℚ) :: [])).flatten ++ [(10 : ℚ)]) :
    x = 10 ∨ x = 0 := by
  rcases List.mem_append.mp hx with h | h
  · obtain ⟨l, hl, hxl⟩ := List.mem_flatten.mp h
    rw [List.eq_of_mem_replicate hl] at hxl
    simpa using hxl
  · left
    simpa using h

/-! ### Helper lemmas about the history management of `calculateSPM` -/

theorem calculateSPM_push_getLast (data : List ℚ) (dur : ℚ) (h : List ℚ)
    (hv : ¬ sampleVariance data < 1 / 10) :
    (calculateSPM data dur h).2.getLast? = some (rawSpm data dur) := by
  simp only [calculateSPM, if_neg hv, smootherPush]
  by_cases h3 : 3 < (h ++ [rawSpm data dur]).length
  · rw [if_pos h3]
    cases h with
    | nil => simp at h3
    | cons y ys =>
      show (ys ++ [rawSpm data dur]).getLast? = some (rawSpm data dur)
      exact List.getLast?_concat ys
  · rw [if_neg h3]
    exact List.getLast?_concat h

theorem calculateSPM_hist_length (data : List ℚ) (dur : ℚ) (h : List ℚ)
    (hle : h.length ≤ 3) : (calculateSPM data dur h).2.length ≤ 3 := by
  by_cases hv : sampleVariance data < 1 / 10
  · simp only [calculateSPM]
    rw [if_pos hv]
    exact hle
  · simp only [calculateSPM, if_neg hv, smootherPush]
    by_cases h3 : 3 < (h ++ [rawSpm data dur]).length
    · rw [if_pos h3]
      simp only [List.length_tail, List.length_append, List.length_cons]
      simp
      omega
    · rw [if_neg h3]
      omega

theorem foldl_hist_length (ops : List (List ℚ × ℚ)) :
    ∀ h : List ℚ, h.length ≤ 3 →
      (ops.foldl (fun hist p => (calculateSPM p.1 p.2 hist).2) h).length ≤ 3 := by
  induction ops with
  | nil => intro h hh; exact hh
  | cons p ps ih =>
    intro h hh
    exact ih _ (calculateSPM_hist_length p.1 p.2 h hh)

theorem mini_mean : sampleMean [(0 : ℚ), 10, 0, 10] = 5 := by
  rw [sampleMean_eq]
  norm_num

theorem mini_var : sampleVariance [(0 : ℚ), 10, 0, 10] = 25 := by
  rw [sampleVariance_eq, mini_mean]
  norm_num

theorem mini_steps : codeStepCount [(0 : ℚ), 10, 0, 10] = 2 := by
  unfold codeStepCount
  rw [mini_mean, mini_var]
  show stepLoop 5 25 ((10 : ℚ) :: (0 : ℚ) :: (10 : ℚ) :: []) 0 false = 2
  rw [stepLoop_cons, alt_above_ten]
  simp only [Bool.not_false, Bool.and_self, if_true]
  rw [stepLoop_cons, alt_above_zero]
  simp only [alt_below_zero, Bool.false_and, Bool.false_eq_true, if_false, if_true]
  rw [stepLoop_cons, alt_above_ten]
  simp only [Bool.not_false, Bool.and_self, if_true]
  rfl

theorem mini_rawSpm : rawSpm [(0 : ℚ), 10, 0, 10] 80 = 1500 := by
  rw [rawSpm, mini_steps]
  norm_num [jsRound]

/-! ### Claim theorems -/

/-- C1, counterexample: `spikeFrame` is a non-stationary 200-sample frame
(variance 199/400 ≥ 0.1) whose only sample above the adaptive threshold is
the first one.  Walking all 200 samples as the claim describes counts 1
rising-edge crossing, but the code's loop starts at index 1 and counts 0:
the step count does NOT equal the crossing count over the whole frame. -/
theorem C1_counterexample :
    ¬ sampleVariance spikeFrame < 1 / 10 ∧
      specStepCount spikeFrame = 1 ∧ codeStepCount spikeFrame = 0 := by
  refine ⟨?_, specStepCount_spikeFrame, codeStepCount_spikeFrame⟩
  rw [spikeFrame_var]
  norm_num

/-- C1, amended: for every non-stationary frame, the step count equals the
number of rising-edge threshold crossings over the samples at indices 1
through 199 only — the first sample is never a crossing candidate — where,
provided every walked sample is strictly above or strictly below the
threshold, that count is exactly the number of transitions from not-above
(≤ T, or the start of the walk) to above (> T). -/
theorem C1_crossing_count (data : List ℚ)
    (hv : ¬ sampleVariance data < 1 / 10)
    (hd : ∀ x ∈ data.tail,
      aboveThreshold (sampleMean data) (sampleVariance data) x = true ∨
        belowThreshold (sampleMean data) (sampleVariance data) x = true) :
    codeStepCount data
      = risingEdgeCount (sampleMean data) (sampleVariance data) false data.tail := by
  unfold codeStepCount
  simpa using stepLoop_eq_risingEdgeCount _ _ _ hd 0 false

/-- C1, witness: the amended theorem applied to the concrete non-stationary
frame `altFrame`. -/
theorem C1_witness :
    (¬ sampleVariance altFrame < 1 / 10) ∧
      (∀ x ∈ altFrame.tail,
        aboveThreshold (sampleMean altFrame) (sampleVariance altFrame) x = true ∨
          belowThreshold (sampleMean altFrame) (sampleVariance altFrame) x = true) ∧
      codeStepCount altFrame
        = risingEdgeCount (sampleMean altFrame) (sampleVariance altFrame) false
            altFrame.tail := by
  have hv : ¬ sampleVariance altFrame < 1 / 10 := by
    rw [altFrame_var]; norm_num
  have hd : ∀ x ∈ altFrame.tail,
      aboveThreshold (sampleMean altFrame) (sampleVariance altFrame) x = true ∨
        belowThreshold (sampleMean altFrame) (sampleVariance altFrame) x = true := by
    intro x hx
    rw [altFrame_mean, altFrame_var]
    rcases alt_tail_mem x (by rw [← altFrame_tail]; exact hx) with h | h
    · rw [h]; exact Or.inl alt_above_ten
    · rw [h]; exact Or.inr alt_below_zero
  exact ⟨hv, hd, C1_crossing_count altFrame hv hd⟩

/-- C2: a frame with population variance < 0.1 yields cadence exactly 0 and
leaves the history completely untouched; and every constant frame has
population variance exactly 0, so it falls under this rule. -/
theorem C2_stationary :
    (∀ (data : List ℚ) (dur : ℚ) (hist : List ℚ),
        sampleVariance data < 1 / 10 → calculateSPM data dur hist = (0, hist)) ∧
      ∀ c : ℚ, sampleVariance (List.replicate 200 c) = 0 := by
  refine ⟨fun data dur hist hv => ?_, fun c => sampleVariance_replicate 200 c⟩
  simp only [calculateSPM]
  rw [if_pos hv]

/-- C2, witness: the theorem applied to the constant frame of 200 samples of
magnitude 7 with a nonempty prior history. -/
theorem C2_witness :
    sampleVariance (List.replicate 200 (7 : ℚ)) < 1 / 10 ∧
      calculateSPM (List.replicate 200 (7 : ℚ)) 4000 [120] = (0, [120]) := by
  have h0 : sampleVariance (List.replicate 200 (7 : ℚ)) = 0 := C2_stationary.2 7
  have hlt : sampleVariance (List.replicate 200 (7 : ℚ)) < 1 / 10 := by
    rw [h0]; norm_num
  exact ⟨hlt, C2_stationary.1 _ 4000 [120] hlt⟩

/-- C3, counterexample: `spikeFrame` is non-stationary (variance ≥ 0.1) but
has zero detected steps, so its raw cadence is 0 — and the code still pushes
that 0 into the history: after processing it from an empty history the
history is `[0]`, refuting "a raw cadence of 0 is never pushed" and "the
history never contains a 0 entry". -/
theorem C3_counterexample :
    ¬ sampleVariance spikeFrame < 1 / 10 ∧
      rawSpm spikeFrame 4000 = 0 ∧ (calculateSPM spikeFrame 4000 []).2 = [0] := by
  have hv : ¬ sampleVariance spikeFrame < 1 / 10 := by
    rw [spikeFrame_var]; norm_num
  refine ⟨hv, rawSpm_spikeFrame 4000, ?_⟩
  simp only [calculateSPM, if_neg hv, smootherPush, rawSpm_spikeFrame]
  rfl

/-- C3, amended: a value is appended to the history iff the frame is
non-stationary (variance ≥ 0.1): the stationary branch leaves the history
unchanged, and the non-stationary branch always appends the frame's raw
cadence — including a raw cadence of 0, which therefore can appear in the
history. -/
theorem C3_push_guard (data : List ℚ) (dur : ℚ) (hist : List ℚ) :
    (sampleVariance data < 1 / 10 → (calculateSPM data dur hist).2 = hist) ∧
      (¬ sampleVariance data < 1 / 10 →
        (calculateSPM data dur hist).2.getLast? = some (rawSpm data dur)) := by
  constructor
  · intro hv
    simp only [calculateSPM]
    rw [if_pos hv]
  · intro hv
    exact calculateSPM_push_getLast data dur hist hv

/-- C3, witness: the amended theorem applied to a concrete non-stationary
frame and duration. -/
theorem C3_witness :
    ¬ sampleVariance [(0 : ℚ), 10, 0, 10] < 1 / 10 ∧
      (calculateSPM [(0 : ℚ), 10, 0, 10] 80 []).2.getLast?
        = some (rawSpm [(0 : ℚ), 10, 0, 10] 80) := by
  have hv : ¬ sampleVariance [(0 : ℚ), 10, 0, 10] < 1 / 10 := by
    rw [mini_var]; norm_num
  exact ⟨hv, (C3_push_guard [(0 : ℚ), 10, 0, 10] 80 []).2 hv⟩

/-- C4, counterexample: on the non-stationary frame `altFrame` the code
detects 100 steps; called with `durationMs = 0` it still performs the
division `steps / (durationMs / 1000)` (unguarded — `Infinity` in JS,
total division by zero in this rational model) and pushes the resulting
raw cadence into the history, so a cadence estimate DOES enter the
pipeline at zero duration. -/
theorem C4_counterexample :
    ¬ sampleVariance altFrame < 1 / 10 ∧ codeStepCount altFrame = 100 ∧
      (calculateSPM altFrame 0 []).2 = [rawSpm altFrame 0] ∧
      (calculateSPM altFrame 0 []).2 ≠ [] := by
  have hv : ¬ sampleVariance altFrame < 1 / 10 := by
    rw [altFrame_var]; norm_num
  have h2 : (calculateSPM altFrame 0 []).2 = [rawSpm altFrame 0] := by
    simp only [calculateSPM, if_neg hv, smootherPush]
    rfl
  refine ⟨hv, codeStepCount_altFrame, h2, ?_⟩
  rw [h2]
  simp

/-- C4, amended: with `durationS = 0` the code does not treat the frame as
"no estimate": for every non-stationary frame it performs the division on
the zero divisor and appends the rounded result to the history exactly as
for any other duration. -/
theorem C4_zero_duration (data : List ℚ) (hist : List ℚ)
    (hv : ¬ sampleVariance data < 1 / 10) :
    (calculateSPM data 0 hist).2.getLast? = some (rawSpm data 0) :=
  calculateSPM_push_getLast data 0 hist hv

/-- C4, witness: the amended theorem applied to a concrete non-stationary
frame at zero duration. -/
theorem C4_witness :
    ¬ sampleVariance [(0 : ℚ), 10, 0, 10] < 1 / 10 ∧
      (calculateSPM [(0 : ℚ), 10, 0, 10] 0 []).2.getLast?
        = some (rawSpm [(0 : ℚ), 10, 0, 10] 0) := by
  have hv : ¬ sampleVariance [(0 : ℚ), 10, 0, 10] < 1 / 10 := by
    rw [mini_var]; norm_num
  exact ⟨hv, C4_zero_duration [(0 : ℚ), 10, 0, 10] [] hv⟩

/-- C5: the history length never exceeds 3 — a single call preserves the
bound, and any sequence of frame-processing calls starting from the empty
history keeps it — and pushing onto a full history of 3 evicts the oldest
entry (FIFO): the new history is the old history's tail with the new raw
cadence appended. -/
theorem C5_history_window :
    (∀ (data : List ℚ) (dur : ℚ) (hist : List ℚ), hist.length ≤ 3 →
        (calculateSPM data dur hist).2.length ≤ 3) ∧
      (∀ ops : List (List ℚ × ℚ),
        (ops.foldl (fun hist p => (calculateSPM p.1 p.2 hist).2) []).length ≤ 3) ∧
      ∀ (data : List ℚ) (dur : ℚ) (hist : List ℚ), hist.length = 3 →
        ¬ sampleVariance data < 1 / 10 →
        (calculateSPM data dur hist).2 = hist.tail ++ [rawSpm data dur] := by
  refine ⟨calculateSPM_hist_length,
    fun ops => foldl_hist_length ops [] (by simp), ?_⟩
  intro data dur hist h3 hv
  simp only [calculateSPM, if_neg hv, smootherPush]
  have hlen : 3 < (hist ++ [rawSpm data dur]).length := by
    simp [h3]
  rw [if_pos hlen]
  cases hist with
  | nil => simp at h3
  | cons y ys => rfl

/-- C5, witness: the theorem applied to a concrete non-stationary frame and
a full history `[1, 2, 3]`: the oldest entry 1 is evicted. -/
theorem C5_witness :
    ([(1 : ℚ), 2, 3] : List ℚ).length = 3 ∧
      ¬ sampleVariance [(0 : ℚ), 10, 0, 10] < 1 / 10 ∧
      (calculateSPM [(0 : ℚ), 10, 0, 10] 80 [1, 2, 3]).2
        = [(2 : ℚ), 3] ++ [rawSpm [(0 : ℚ), 10, 0, 10] 80] ∧
      (calculateSPM [(0 : ℚ), 10, 0, 10] 80 [1, 2, 3]).2.length ≤ 3 := by
  have hv : ¬ sampleVariance [(0 : ℚ), 10, 0, 10] < 1 / 10 := by
    rw [mini_var]; norm_num
  have h3 : ([(1 : ℚ), 2, 3] : List ℚ).length = 3 := rfl
  refine ⟨h3, hv, C5_history_window.2.2 _ 80 _ h3 hv, ?_⟩
  exact C5_history_window.1 [(0 : ℚ), 10, 0, 10] 80 [1, 2, 3] (by norm_num)

/-- C6: the smoother appends the raw value, evicts the oldest entry once the
length exceeds 3, and returns `round(mean(history))` of the post-push
history; concretely, pushing 100, 110, 90 into an empty history returns 100
with history `[100, 110, 90]`, and a fourth push of 120 evicts 100 and
returns `round(320/3) = 107` with history `[110, 90, 120]`. -/
theorem C6_smoother :
    (∀ (hist : List ℚ) (raw : ℚ),
        (smootherPush hist raw).2
            = (if 3 < (hist ++ [raw]).length then (hist ++ [raw]).tail
               else hist ++ [raw]) ∧
          (smootherPush hist raw).1
            = ((jsRound ((smootherPush hist raw).2.sum /
                ((smootherPush hist raw).2.length : ℚ))) : ℤ)) ∧
      smootherPush [] 100 = (100, [100]) ∧
      smootherPush [(100 : ℚ)] 110 = (105, [100, 110]) ∧
      smootherPush [(100 : ℚ), 110] 90 = (100, [100, 110, 90]) ∧
      smootherPush [(100 : ℚ), 110, 90] 120 = (107, [110, 90, 120]) := by
  refine ⟨fun hist raw => ⟨rfl, ?_⟩, ?_, ?_, ?_, ?_⟩
  · simp only [smootherPush, reduce1_eq_sum]
  · norm_num [smootherPush, reduce1, jsRound, Prod.ext_iff]
  · norm_num [smootherPush, reduce1, jsRound, Prod.ext_iff]
  · norm_num [smootherPush, reduce1, jsRound, Prod.ext_iff]
  · norm_num [smootherPush, reduce1, jsRound, Prod.ext_iff]

/-- C7: whenever cadence and tempo are both positive, the sync score is
exactly `max 0 (100 - |cadence - tempo|)`; in particular a perfect match at
120 scores 100 and cadence 150 against tempo 120 scores 70. -/
theorem C7_sync_linear :
    (∀ c t : ℚ, 0 < c → 0 < t →
        syncScore c t = some (max 0 (100 - |c - t|))) ∧
      syncScore 120 120 = some 100 ∧ syncScore 150 120 = some 70 := by
  refine ⟨fun c t hc ht => by simp [syncScore, hc, ht], ?_, ?_⟩
  · have habs : |(120 : ℚ) - 120| = 0 := by norm_num
    simp only [syncScore, habs]
    norm_num
  · have habs : |(150 : ℚ) - 120| = 30 := by norm_num
    simp only [syncScore, habs]
    norm_num

/-- C7, witness: the general clause applied at cadence 130, tempo 125. -/
theorem C7_witness :
    (0 : ℚ) < 130 ∧ (0 : ℚ) < 125 ∧
      syncScore 130 125 = some (max 0 (100 - |(130 : ℚ) - 125|)) :=
  ⟨by norm_num, by norm_num, C7_sync_linear.1 130 125 (by norm_num) (by norm_num)⟩

/-- C8: when the tempo is unknown (still its initial 0, never fetched) or
the cadence is 0, no sync score is produced for the tick; in particular
cadence 0 against tempo 120 yields no score. -/
theorem C8_null_score :
    (∀ c t : ℚ, c = 0 ∨ t = 0 → syncScore c t = none) ∧
      syncScore 0 120 = none := by
  have key : ∀ c t : ℚ, c = 0 ∨ t = 0 → syncScore c t = none := by
    intro c t h
    rcases h with rfl | rfl <;> simp [syncScore]
  exact ⟨key, key 0 120 (Or.inl rfl)⟩

/-- C8, witness: the general clause applied at cadence 0, tempo 140. -/
theorem C8_witness :
    ((0 : ℚ) = 0 ∨ (140 : ℚ) = 0) ∧ syncScore 0 140 = none :=
  ⟨Or.inl rfl, C8_null_score.1 0 140 (Or.inl rfl)⟩

/-- C9: every failing tempo poll — network error, malformed payload, or a
payload without a `bpm` field — leaves the stored tempo unchanged and never
raises to the caller; the two exceptional cases are logged (the `catch`
branch), the missing-field case silently keeps the previous value. -/
theorem C9_poll_failure (prev : ℚ) :
    updateSongBpm prev .networkError = (prev, true) ∧
      updateSongBpm prev .malformedPayload = (prev, true) ∧
      updateSongBpm prev (.payload none) = (prev, false) :=
  ⟨rfl, rfl, rfl⟩

/-- C10: the step-detection loop starts at index 1 and never examines the
frame's first sample as a crossing candidate: on a non-stationary frame
whose only sample above the adaptive threshold is the first one, the
counted step total is 0 (while the first sample still enters the mean,
variance and threshold, which are computed over the whole frame). -/
theorem C10_first_sample_ignored (d0 : ℚ) (rest : List ℚ)
    (hv : ¬ sampleVariance (d0 :: rest) < 1 / 10)
    (h0 : aboveThreshold (sampleMean (d0 :: rest)) (sampleVariance (d0 :: rest))
      d0 = true)
    (hrest : ∀ x ∈ rest,
      aboveThreshold (sampleMean (d0 :: rest)) (sampleVariance (d0 :: rest))
        x = false) :
    codeStepCount (d0 :: rest) = 0 := by
  unfold codeStepCount
  exact stepLoop_no_above _ _ _ hrest 0 false

/-- C10, witness: the theorem applied to `spikeFrame`, whose first sample 10
is above the threshold while all 199 remaining samples are not. -/
theorem C10_witness :
    ¬ sampleVariance spikeFrame < 1 / 10 ∧
      aboveThreshold (sampleMean spikeFrame) (sampleVariance spikeFrame)
        10 = true ∧
      (∀ x ∈ List.replicate 199 (0 : ℚ),
        aboveThreshold (sampleMean spikeFrame) (sampleVariance spikeFrame)
          x = false) ∧
      codeStepCount spikeFrame = 0 := by
  have hv : ¬ sampleVariance spikeFrame < 1 / 10 := by
    rw [spikeFrame_var]; norm_num
  have hrest : ∀ x ∈ List.replicate 199 (0 : ℚ),
      aboveThreshold (sampleMean spikeFrame) (sampleVariance spikeFrame)
        x = false := fun x hx => by
    rw [List.eq_of_mem_replicate hx]; exact spike_above_zero
  exact ⟨hv, spike_above_ten, hrest,
    C10_first_sample_ignored 10 (List.replicate 199 0) hv spike_above_ten hrest⟩
